import Mathlib

/-!
# terraform-provider-jamfpro: retry helper, webhook diff validation, engage settings

A shallow embedding of

* `internal/endpoints/scripts/backoff.go`
  (`ByResourceIntID`, `ByResourceStringID`, `WaitForResourceToBeAvailable`),
* `internal/resources/webhook/data_validator.go`
  (`mainCustomDiffFunc` and its two validators),
* `internal/resources/engage_settings/crud.go` (`create`, `read`, `update`, `delete`).

Conventions.  A Go `error` is represented by its text (`Error()`), the only thing the
code inspects; `Option Error` is the interface value, `none` being `nil`.  Effects
(remote calls, `time.Sleep`, `rand.Float64`) are threaded through an explicit world `W`.
`time.Duration` is an integer number of nanoseconds.  `float64` arithmetic is exact
rational arithmetic followed by a rounding function `rnd`, about which theorems assume
only what IEEE round-to-nearest guarantees (monotone, exact on small half-integers).
-/

namespace Jamfpro

/-! ## Go runtime pieces -/

/-- Text of a non-nil Go `error`. -/
abbrev Error := String

/-- Dynamic values stored in an `interface{}` by the code under study. -/
inductive Value where
  | int (n : Int)
  | str (s : String)
deriving DecidableEq

/-- Rendering of a value by the `%v` verb of `fmt`. -/
def Value.fmtV : Value → String
  | .int n => toString n
  | .str s => s

/-- Rendering of a value by the `%T` verb of `fmt` (its dynamic type). -/
def Value.fmtT : Value → String
  | .int _ => "int"
  | .str _ => "string"

/-- Rendering of an `error` interface value by `%v`: its text, or `<nil>`. -/
def fmtErr : Option Error → String
  | some e => e
  | none => "<nil>"

/-- Whether the first list starts the second one. -/
def startsWithChars : List Char → List Char → Bool
  | [], _ => true
  | _ :: _, [] => false
  | p :: ps, c :: cs => p == c && startsWithChars ps cs

/-- Whether `sub` occurs as a contiguous block of `s`. -/
def containsChars (sub : List Char) : List Char → Bool
  | [] => startsWithChars sub []
  | c :: cs => startsWithChars sub (c :: cs) || containsChars sub cs

namespace strings

/-- Go `strings.Contains(s, substr)`.  The patterns used are ASCII, for which
substring search on code points and on UTF-8 bytes agree. -/
def Contains (s substr : String) : Bool := containsChars substr.data s.data

end strings

/-! ## Diagnostics (`terraform-plugin-sdk/v2/diag`) -/

/-- Severity of a diagnostic. -/
inductive Severity where
  | Error
  | Warning
deriving DecidableEq

/-- One `diag.Diagnostic`. -/
structure Diagnostic where
  Severity : Severity
  Summary : String
  Detail : String
deriving DecidableEq

/-- The type `diag.Diagnostics`. -/
abbrev Diagnostics := List Diagnostic

namespace diag

/-- Go `diag.FromErr`: a single error diagnostic whose summary is the error text
(no diagnostics for a nil error). -/
def FromErr : Option Error → Diagnostics
  | some e => [{ Severity := Severity.Error, Summary := e, Detail := "" }]
  | none => []

end diag

/-! ## Retry loop (`terraform-plugin-sdk/v2/helper/retry`) -/

/-- The type `retry.RetryError`. -/
structure RetryError where
  Err : Error
  Retryable : Bool
deriving DecidableEq

namespace retry

/-- Go `retry.RetryableError`. -/
def RetryableError (e : Error) : RetryError := { Err := e, Retryable := true }

/-- Go `retry.NonRetryableError`. -/
def NonRetryableError (e : Error) : RetryError := { Err := e, Retryable := false }

/-- Text of the library error returned when the deadline fires before any attempt
has produced an error of its own. -/
def timeoutError : Error := "timeout while waiting for state to become \x27success\x27"

/-- Modelled from the spec: the loop of `retry.RetryContext`, a function of the
terraform-plugin-sdk that is not part of the sources.  `budget` is the number of
invocations of `f` that start before the deadline (context deadline or operation
timeout) fires; the deadline is checked before each invocation.  `resultErr` is the
error of the most recent invocation. -/
def retryLoop {σ : Type} (f : σ → Option RetryError × σ) :
    Nat → Option Error → σ → Option Error × σ
  | 0, resultErr, s => (some (resultErr.getD timeoutError), s)
  | n + 1, _, s =>
    match f s with
    | (none, s1) => (none, s1)
    | (some re, s1) =>
      if re.Retryable then retryLoop f n (some re.Err) s1 else (some re.Err, s1)

/-- Modelled from the spec: `retry.RetryContext(ctx, timeout, f)`, not part of the
sources.  It invokes `f` until `f` returns nil (result nil), returns a non-retryable
error (result: that error), or the deadline fires (result: the last retryable error,
or a timeout error when there is none). -/
def RetryContext {σ : Type} (budget : Nat) (f : σ → Option RetryError × σ) (s : σ) :
    Option Error × σ :=
  retryLoop f budget none s

end retry

/-! ## `backoff.go` -/

/-- External effects used by the waiter, over a world `W`. -/
structure Sys (W : Type) where
  /-- Go `time.Sleep(d)`. -/
  sleep : Int → W → W
  /-- Go `rand.Float64()`. -/
  rand : W → ℚ × W
  /-- Rounding of an exact real result to `float64`. -/
  rnd : ℚ → ℚ

/-- Conversion `float64(d)` of a duration. -/
def toFloat64 (rnd : ℚ → ℚ) (d : Int) : ℚ := rnd (d : ℚ)

/-- Product of two `float64` values. -/
def fmul (rnd : ℚ → ℚ) (x y : ℚ) : ℚ := rnd (x * y)

/-- Conversion `time.Duration(x)` of a `float64`: truncation toward zero. -/
def toDuration (x : ℚ) : Int := if 0 ≤ x then ⌊x⌋ else ⌈x⌉

/-- One second, in nanoseconds (`time.Second`). -/
def Second : Int := 1000000000

/-- The constant `initialBackoff`. -/
def initialBackoff : Int := 1 * Second

/-- The constant `maxBackoff`. -/
def maxBackoff : Int := 30 * Second

/-- The constant `backoffFactor`. -/
def backoffFactor : ℚ := 2

/-- The constant `jitterFactor`. -/
def jitterFactor : ℚ := 1 / 2

/-- The argument of `time.Sleep` in the retry closure:
`currentBackoff + time.Duration(rand.Float64()*jitterFactor*float64(currentBackoff))`. -/
def sleepDuration (rnd : ℚ → ℚ) (u : ℚ) (currentBackoff : Int) : Int :=
  currentBackoff + toDuration (fmul rnd (fmul rnd u jitterFactor) (toFloat64 rnd currentBackoff))

/-- The update of `currentBackoff` in the retry closure: multiply by `backoffFactor`
in `float64`, convert back, cap at `maxBackoff`. -/
def nextBackoff (rnd : ℚ → ℚ) (currentBackoff : Int) : Int :=
  let next := toDuration (fmul rnd (toFloat64 rnd currentBackoff) backoffFactor)
  if next > maxBackoff then maxBackoff else next

/-- Result of one call of an `APICallFunc`: `(interface{}, error)`. -/
abbrev FetchResult (R : Type) := Option R × Option Error

/-- The type `APICallFunc`. -/
abbrev APICallFunc (R W : Type) := Value → W → FetchResult R × W

/-- The type `APICallFuncInt`. -/
abbrev APICallFuncInt (R W : Type) := Int → W → FetchResult R × W

/-- The type `APICallFuncString`. -/
abbrev APICallFuncString (R W : Type) := String → W → FetchResult R × W

/-- Local variables of `WaitForResourceToBeAvailable` captured by the retry closure. -/
structure Locals (R : Type) where
  lastError : Option Error
  resource : Option R
  currentBackoff : Int

/-- The closure passed to `retry.RetryContext` by `WaitForResourceToBeAvailable`. -/
def retryFunc {R W : Type} (sys : Sys W) (resourceID : Value)
    (checkResourceExists : APICallFunc R W) :
    Locals R × W → Option RetryError × (Locals R × W)
  | (l, w) =>
    match checkResourceExists resourceID w with
    | ((res, some apiErr), w1) =>
      if strings.Contains apiErr "404" || strings.Contains apiErr "410" then
        let draw := sys.rand w1
        let w3 := sys.sleep (sleepDuration sys.rnd draw.1 l.currentBackoff) draw.2
        (some (retry.RetryableError apiErr),
          ({ lastError := some apiErr, resource := res,
             currentBackoff := nextBackoff sys.rnd l.currentBackoff }, w3))
      else
        (some (retry.NonRetryableError apiErr),
          ({ lastError := some apiErr, resource := res,
             currentBackoff := l.currentBackoff }, w1))
    | ((res, none), w1) =>
      (none, ({ lastError := none, resource := res, currentBackoff := l.currentBackoff }, w1))

/-- Text built by the `fmt.Errorf` call of `WaitForResourceToBeAvailable`. -/
def waitErrorText (resourceID : Value) (lastError : Option Error) : Error :=
  "error waiting for resource with ID \x27" ++ resourceID.fmtV ++
    "\x27 to become available: " ++ fmtErr lastError

/-- Go `WaitForResourceToBeAvailable`.  `deadline` stands for `ctx` and
`d.Timeout(schema.TimeoutCreate)`: the number of attempts that start before the
deadline fires. -/
def WaitForResourceToBeAvailable {R W : Type} (sys : Sys W) (deadline : Nat)
    (resourceID : Value) (checkResourceExists : APICallFunc R W) (w : W) :
    (Option R × Diagnostics) × W :=
  let init : Locals R :=
    { lastError := none, resource := none, currentBackoff := initialBackoff }
  match retry.RetryContext deadline (retryFunc sys resourceID checkResourceExists) (init, w) with
  | (some _, (l, w1)) =>
    ((none, [] ++ diag.FromErr (some (waitErrorText resourceID l.lastError))), w1)
  | (none, (l, w1)) => ((l.resource, []), w1)

/-- Go `ByResourceIntID`. -/
def ByResourceIntID {R W : Type} (sys : Sys W) (deadline : Nat) (resourceID : Int)
    (apiCall : APICallFuncInt R W) (w : W) : (Option R × Diagnostics) × W :=
  let genericAPICall : APICallFunc R W := fun id w0 =>
    match id with
    | .int intID => apiCall intID w0
    | other => ((none, some ("expected int ID, got " ++ other.fmtT)), w0)
  WaitForResourceToBeAvailable sys deadline (.int resourceID) genericAPICall w

/-- Go `ByResourceStringID`. -/
def ByResourceStringID {R W : Type} (sys : Sys W) (deadline : Nat) (resourceID : String)
    (apiCall : APICallFuncString R W) (w : W) : (Option R × Diagnostics) × W :=
  let genericAPICall : APICallFunc R W := fun id w0 =>
    match id with
    | .str strID => apiCall strID w0
    | other => ((none, some ("expected string ID, got " ++ other.fmtT)), w0)
  WaitForResourceToBeAvailable sys deadline (.str resourceID) genericAPICall w

/-! ### A recording world: scripted fetch results and random draws, logged effects -/

/-- World that logs the identifiers passed to the fetch function and the durations
slept, and counts the random draws. -/
structure Rec where
  fetches : List Value
  sleeps : List Int
  draws : Nat
deriving DecidableEq

/-- The empty log. -/
def Rec.start : Rec := { fetches := [], sleeps := [], draws := 0 }

/-- Effects over the recording world: the `n`-th draw (from 0) is `randScript n`. -/
def recSys (rnd : ℚ → ℚ) (randScript : Nat → ℚ) : Sys Rec where
  sleep := fun d w => { w with sleeps := w.sleeps ++ [d] }
  rand := fun w => (randScript w.draws, { w with draws := w.draws + 1 })
  rnd := rnd

/-- Fetch function over the recording world: attempt `n` (counted from 1) on identifier
`id` returns `script n id`. -/
def recFetch {R : Type} (script : Nat → Value → FetchResult R) : APICallFunc R Rec :=
  fun id w => (script (w.fetches.length + 1) id, { w with fetches := w.fetches ++ [id] })

/-- Whether an error text is classified as transient-not-found by the waiter. -/
def isTransient (e : Error) : Bool := strings.Contains e "404" || strings.Contains e "410"

/-- The waiter run from the empty log of the recording world. -/
def recRun {R : Type} (rnd : ℚ → ℚ) (randScript : Nat → ℚ)
    (script : Nat → Value → FetchResult R) (deadline : Nat) (id : Value) :
    (Option R × Diagnostics) × Rec :=
  WaitForResourceToBeAvailable (recSys rnd randScript) deadline id (recFetch script) Rec.start

namespace retry

/-- State left by one invocation of the retried function. -/
def step {σ : Type} (f : σ → Option RetryError × σ) (s : σ) : σ := (f s).2

end retry

/-- Initial values of the locals captured by the retry closure. -/
def Locals.init (R : Type) : Locals R :=
  { lastError := none, resource := none, currentBackoff := initialBackoff }

/-- The value of `currentBackoff` after `n` transient errors: `n` updates of the initial
value. -/
def backoffAfter (rnd : ℚ → ℚ) (n : Nat) : Int := (nextBackoff rnd)^[n] initialBackoff

/-- Locals of the closure after `n` attempts that all returned a transient error. -/
def localsAfter {R : Type} (rnd : ℚ → ℚ) (script : Nat → Value → FetchResult R) (id : Value) :
    Nat → Locals R
  | 0 => Locals.init R
  | n + 1 =>
    { lastError := (script (n + 1) id).2, resource := (script (n + 1) id).1,
      currentBackoff := backoffAfter rnd (n + 1) }

/-- Log of the recording world after `n` attempts that all returned a transient error. -/
def worldAfter (rnd : ℚ → ℚ) (randScript : Nat → ℚ) (id : Value) (n : Nat) : Rec :=
  { fetches := List.replicate n id,
    sleeps := (List.range n).map (fun j => sleepDuration rnd (randScript j) (backoffAfter rnd j)),
    draws := n }

/-- Attempt `i` of the script returns an error classified as transient-not-found. -/
def TransientAt {R : Type} (script : Nat → Value → FetchResult R) (id : Value) (i : Nat) : Prop :=
  ∃ res e, script i id = (res, some e) ∧ isTransient e = true

/-- What the theorems assume of `float64` rounding: it is monotone, and exact on every
half-integer `k/2` with `k < 2^53` (such a value has at most 53 significant bits). -/
def Float64Rounding (rnd : ℚ → ℚ) : Prop :=
  Monotone rnd ∧ ∀ k : ℕ, k < 2 ^ 53 → rnd ((k : ℚ) / 2) = (k : ℚ) / 2

/-- The base backoff before attempt `k` (`k ≥ 2`) in the words of the specification:
`min(initialBackoff * backoffFactor^(k-2), maxBackoff)`. -/
def specBackoff (k : Nat) : Int := min (initialBackoff * 2 ^ (k - 2)) maxBackoff

/-- The fixed text that `WaitForResourceToBeAvailable` puts in front of the wrapped error. -/
def failureWrapper (id : Value) : String :=
  "error waiting for resource with ID \x27" ++ id.fmtV ++ "\x27 to become available: "

/-- The kind of a list of failure diagnostics relative to the wrapped error text: severity,
detail, and the summary with the wrapped text cut off its end. -/
def failureKind (wrapped : Error) (ds : Diagnostics) : List (Severity × List Char × String) :=
  ds.map (fun d =>
    (d.Severity, d.Summary.data.take (d.Summary.data.length - wrapped.data.length), d.Detail))

/-- A resource with a name, used in examples. -/
structure NamedResource where
  Name : String
deriving DecidableEq

/-- Example script: "404 not found" on attempts 1 and 2, then a resource named "g1". -/
def exampleScript : Nat → Value → FetchResult NamedResource :=
  fun n _ => if n < 3 then (none, some "404 not found") else (some { Name := "g1" }, none)

/-- Example script: every attempt returns the given error. -/
def alwaysError (e : Error) : Nat → Value → FetchResult NamedResource :=
  fun _ _ => (none, some e)

/-! ## `webhook/data_validator.go` -/

namespace webhook

/-- The part of `schema.ResourceDiff` used by the validators: `Get` and `GetOk` by key. -/
structure ResourceDiff where
  Get : String → Value
  GetOk : String → Value × Bool

/-- Type assertion `v.(string)`; `none` stands for the run-time panic of a failed
assertion. -/
def assertString : Value → Option String
  | .str s => some s
  | .int _ => none

/-- Go `validateAuthenticationRequirements`.  The outer `Option` is `none` when a type
assertion panics; the inner one is the returned `error`. -/
def validateAuthenticationRequirements (diff : ResourceDiff) : Option (Option Error) :=
  match assertString (diff.Get "name") with
  | none => none
  | some resourceName =>
    let authType := diff.GetOk "authentication_type"
    if !authType.2 then some none
    else
      match assertString authType.1 with
      | none => none
      | some a =>
        if a != "Basic Authentication" then some none
        else
          let username := diff.GetOk "username"
          let password := diff.GetOk "password"
          if !username.2 || username.1 == Value.str "" then
            some (some ("in \x27jamfpro_webhook." ++ resourceName ++
              "\x27: when \x27authentication_type\x27 is set to \x27Basic Authentication\x27, \x27username\x27 must be provided"))
          else if !password.2 || password.1 == Value.str "" then
            some (some ("in \x27jamfpro_webhook." ++ resourceName ++
              "\x27: when \x27authentication_type\x27 is set to \x27Basic Authentication\x27, \x27password\x27 must be provided"))
          else some none

/-- The list `requiredEvents` of `validateSmartGroupIDRequirement`. -/
def requiredEvents : List String :=
  ["SmartGroupComputerMembershipChange",
   "SmartGroupMobileDeviceMembershipChange",
   "SmartGroupUserMembershipChange"]

/-- The `for` loop of `validateSmartGroupIDRequirement` over the remaining events. -/
def smartGroupLoop (diff : ResourceDiff) (resourceName : String) (event : Value) :
    List String → Option (Option Error)
  | [] => some none
  | reqEvent :: rest =>
    match assertString event with
    | none => none
    | some ev =>
      if ev == reqEvent then
        let smartGroupID := diff.GetOk "smart_group_id"
        if !smartGroupID.2 || smartGroupID.1 == Value.int 0 then
          some (some ("in \x27jamfpro_webhook." ++ resourceName ++
            "\x27: when \x27event\x27 is set to \x27" ++ ev ++
            "\x27, \x27smart_group_id\x27 must be provided and must be a valid non-zero integer"))
        else some none
      else smartGroupLoop diff resourceName event rest

/-- Go `validateSmartGroupIDRequirement`. -/
def validateSmartGroupIDRequirement (diff : ResourceDiff) : Option (Option Error) :=
  match assertString (diff.Get "name") with
  | none => none
  | some resourceName =>
    let event := diff.GetOk "event"
    if !event.2 then some none
    else smartGroupLoop diff resourceName event.1 requiredEvents

/-- Go `mainCustomDiffFunc`. -/
def mainCustomDiffFunc (diff : ResourceDiff) : Option (Option Error) :=
  match validateAuthenticationRequirements diff with
  | none => none
  | some (some err) => some (some err)
  | some none =>
    match validateSmartGroupIDRequirement diff with
    | none => none
    | some (some err) => some (some err)
    | some none => some none

/-- The keys asserted to be strings hold strings (as the resource schema guarantees), so
that no type assertion panics. -/
def WellTyped (diff : ResourceDiff) : Prop :=
  (∃ n, diff.Get "name" = Value.str n) ∧
  ((diff.GetOk "authentication_type").2 = true →
    ∃ a, (diff.GetOk "authentication_type").1 = Value.str a) ∧
  ((diff.GetOk "event").2 = true → ∃ ev, (diff.GetOk "event").1 = Value.str ev)

/-- A string attribute is unset or empty. -/
def Missing (diff : ResourceDiff) (key : String) : Prop :=
  (diff.GetOk key).2 = false ∨ (diff.GetOk key).1 = Value.str ""

/-- Condition (a): basic authentication is selected and a credential is missing. -/
def AuthViolation (diff : ResourceDiff) : Prop :=
  diff.GetOk "authentication_type" = (Value.str "Basic Authentication", true) ∧
  (Missing diff "username" ∨ Missing diff "password")

/-- Condition (b): a smart-group event is selected and `smart_group_id` is unset or 0. -/
def SmartGroupViolation (diff : ResourceDiff) : Prop :=
  ((diff.GetOk "event").2 = true ∧
    ((diff.GetOk "event").1 = Value.str "SmartGroupComputerMembershipChange" ∨
     (diff.GetOk "event").1 = Value.str "SmartGroupMobileDeviceMembershipChange" ∨
     (diff.GetOk "event").1 = Value.str "SmartGroupUserMembershipChange")) ∧
  ((diff.GetOk "smart_group_id").2 = false ∨ (diff.GetOk "smart_group_id").1 = Value.int 0)

/-- Example diff: basic authentication without credentials, a smart-group event without
`smart_group_id`. -/
def exampleDiff : ResourceDiff where
  Get := fun key => if key = "name" then Value.str "hook" else Value.str ""
  GetOk := fun key =>
    if key = "authentication_type" then (Value.str "Basic Authentication", true)
    else if key = "event" then (Value.str "SmartGroupUserMembershipChange", true)
    else if key = "smart_group_id" then (Value.int 0, false)
    else (Value.str "", false)

end webhook

/-! ## `engage_settings/crud.go` -/

namespace engage_settings

/-- The part of `schema.ResourceData` that matters here: the resource ID, and the rest. -/
structure ResourceData (A : Type) where
  id : String
  attrs : A

/-- Go `d.SetId(v)`. -/
def ResourceData.SetId {A : Type} (d : ResourceData A) (v : String) : ResourceData A :=
  { d with id := v }

/-- The two methods of `jamfpro.Client` used by the handlers, over a world `W`. -/
structure Client (S Resp W : Type) where
  UpdateEngageSettings : S → W → (Option Resp × Option Error) × W
  GetEngageSettings : W → (Option Resp × Option Error) × W

/-- Everything the handlers depend on that lies outside `crud.go`: the client, the
helpers `constructEngageSettings` and `updateState` of the package (not part of the
sources, taken as parameters), and the number of attempts each operation timeout allows. -/
structure Env (A S Resp W : Type) where
  client : Client S Resp W
  constructEngageSettings : ResourceData A → Except Error S
  updateState : ResourceData A → Option Resp → Diagnostics × ResourceData A
  timeoutCreate : Nat
  timeoutRead : Nat
  timeoutUpdate : Nat

/-- The closure retried by `create` and `update`: one `UpdateEngageSettings` call. -/
def updateFunc {S Resp W : Type} (client : Client S Resp W) (settings : S) :
    W → Option RetryError × W := fun w =>
  match client.UpdateEngageSettings settings w with
  | ((_, some apiErr), w1) => (some (retry.RetryableError apiErr), w1)
  | ((_, none), w1) => (none, w1)

/-- The closure retried by `read`: one `GetEngageSettings` call, assigning `response`. -/
def getFunc {S Resp W : Type} (client : Client S Resp W) :
    Option Resp × W → Option RetryError × (Option Resp × W) := fun s =>
  match client.GetEngageSettings s.2 with
  | ((response, some apiErr), w1) => (some (retry.RetryableError apiErr), (response, w1))
  | ((response, none), w1) => (none, (response, w1))

/-- Go `read`.  The diagnostics built from a failed retry are discarded by the code. -/
def read {A S Resp W : Type} (env : Env A S Resp W) (d : ResourceData A) (w : W) :
    Diagnostics × ResourceData A × W :=
  let d1 := d.SetId "jamfpro_engage_settings_singleton"
  match retry.RetryContext env.timeoutRead (getFunc env.client) (none, w) with
  | (_, (response, w1)) =>
    let st := env.updateState d1 response
    ([] ++ st.1, st.2, w1)

/-- Go `create`. -/
def create {A S Resp W : Type} (env : Env A S Resp W) (d : ResourceData A) (w : W) :
    Diagnostics × ResourceData A × W :=
  match env.constructEngageSettings d with
  | .error err =>
    (diag.FromErr (some ("failed to construct Jamf Pro Engage Settings for update: " ++ err)),
      d, w)
  | .ok resource =>
    match retry.RetryContext env.timeoutCreate (updateFunc env.client resource) w with
    | (some err, w1) =>
      (diag.FromErr (some
        ("failed to apply Jamf Pro Engage Settings configuration after retries: " ++ err)),
        d, w1)
    | (none, w1) =>
      let r := read env (d.SetId "jamfpro_engage_settings_singleton") w1
      ([] ++ r.1, r.2.1, r.2.2)

/-- Go `update`. -/
def update {A S Resp W : Type} (env : Env A S Resp W) (d : ResourceData A) (w : W) :
    Diagnostics × ResourceData A × W :=
  match env.constructEngageSettings d with
  | .error err =>
    (diag.FromErr (some ("failed to construct Jamf Pro Engage Settings for update: " ++ err)),
      d, w)
  | .ok engageSettingsConfig =>
    match retry.RetryContext env.timeoutUpdate (updateFunc env.client engageSettingsConfig) w with
    | (some err, w1) =>
      (diag.FromErr (some
        ("failed to apply Jamf Pro Engage Settings configuration after retries: " ++ err)),
        d, w1)
    | (none, w1) =>
      let r := read env (d.SetId "jamfpro_engage_singleton") w1
      ([] ++ r.1, r.2.1, r.2.2)

/-- Go `delete`: it only clears the ID; the client is not used. -/
def delete {A W : Type} (d : ResourceData A) (w : W) : Diagnostics × ResourceData A × W :=
  ([], d.SetId "", w)

/-- Example environment: a world counting API calls, every call succeeding, and an
`updateState` that leaves the resource data alone. -/
def exampleEnv : Env Unit Unit Unit Nat where
  client :=
    { UpdateEngageSettings := fun _ w => ((some (), none), w + 1)
      GetEngageSettings := fun w => ((some (), none), w + 1) }
  constructEngageSettings := fun _ => .ok ()
  updateState := fun d _ => ([], d)
  timeoutCreate := 1
  timeoutRead := 1
  timeoutUpdate := 1

end engage_settings

/-! # Theorems -/

/-! ## Lemmas on the retry loop -/

theorem retry.retryLoop_skip {σ : Type} (f : σ → Option RetryError × σ) :
    ∀ (n m : Nat) (re : Option Error) (s : σ),
      (∀ i, i < n → ∃ e, (f ((retry.step f)^[i] s)).1 = some (retry.RetryableError e)) →
      ∃ re1, retry.retryLoop f (n + m) re s = retry.retryLoop f m re1 ((retry.step f)^[n] s) := by
  intro n
  induction n with
  | zero => intro m re s _; exact ⟨re, by simp⟩
  | succ n ih =>
    intro m re s h
    obtain ⟨e, he⟩ := h 0 (by omega)
    rcases hfs : f s with ⟨r, s1⟩
    have hr : r = some (retry.RetryableError e) := by simpa [hfs] using he
    subst hr
    have hs1 : retry.step f s = s1 := by simp [retry.step, hfs]
    obtain ⟨re1, h1⟩ := ih m (some e) s1 (by
      intro i hi
      have := h (i + 1) (by omega)
      simpa [Function.iterate_succ_apply, hs1] using this)
    refine ⟨re1, ?_⟩
    rw [show n + 1 + m = (n + m) + 1 by omega, Function.iterate_succ_apply, hs1, ← h1]
    simp [retry.retryLoop, hfs, retry.RetryableError]

theorem retry.retryLoop_cases {σ : Type} (f : σ → Option RetryError × σ) (Inv : σ → Prop)
    (hstep : ∀ s, Inv s → Inv (f s).2) :
    ∀ (b : Nat) (re : Option Error) (s : σ), Inv s →
      Inv (retry.retryLoop f b re s).2 ∧
      (((retry.retryLoop f b re s).1 = none ∧
          ∃ s0, Inv s0 ∧ f s0 = (none, (retry.retryLoop f b re s).2)) ∨
        ((retry.retryLoop f b re s).1 ≠ none ∧
          ((retry.retryLoop f b re s).2 = s ∨
            ∃ s0 e, Inv s0 ∧ f s0 = (some e, (retry.retryLoop f b re s).2)))) := by
  intro b
  induction b with
  | zero =>
    intro re s hs
    exact ⟨hs, Or.inr ⟨by simp [retry.retryLoop], Or.inl rfl⟩⟩
  | succ b ih =>
    intro re s hs
    rcases hfs : f s with ⟨r, s1⟩
    have hs1 : Inv s1 := by simpa [hfs] using hstep s hs
    cases r with
    | none =>
      have hrun : retry.retryLoop f (b + 1) re s = (none, s1) := by
        simp [retry.retryLoop, hfs]
      rw [hrun]
      exact ⟨hs1, Or.inl ⟨rfl, s, hs, hfs⟩⟩
    | some e =>
      by_cases hre : e.Retryable = true
      · have hrun : retry.retryLoop f (b + 1) re s = retry.retryLoop f b (some e.Err) s1 := by
          simp [retry.retryLoop, hfs, hre]
        rw [hrun]
        obtain ⟨hI, hc⟩ := ih (some e.Err) s1 hs1
        refine ⟨hI, ?_⟩
        rcases hc with hc | ⟨hne, hc⟩
        · exact Or.inl hc
        · refine Or.inr ⟨hne, Or.inr ?_⟩
          rcases hc with hc | hc
          · exact ⟨s, e, hs, by rw [hc]; exact hfs⟩
          · exact hc
      · have hrun : retry.retryLoop f (b + 1) re s = (some e.Err, s1) := by
          simp [retry.retryLoop, hfs, hre]
        rw [hrun]
        exact ⟨hs1, Or.inr ⟨by simp, Or.inr ⟨s, e, hs, hfs⟩⟩⟩

theorem retryFunc_rec_transient {R : Type} (rnd : ℚ → ℚ) (randScript : Nat → ℚ)
    (script : Nat → Value → FetchResult R) (id : Value) (l : Locals R) (w : Rec)
    (res : Option R) (e : Error)
    (h : script (w.fetches.length + 1) id = (res, some e)) (ht : isTransient e = true) :
    retryFunc (recSys rnd randScript) id (recFetch script) (l, w) =
      (some (retry.RetryableError e),
        ({ lastError := some e, resource := res,
           currentBackoff := nextBackoff rnd l.currentBackoff },
         { fetches := w.fetches ++ [id],
           sleeps := w.sleeps ++ [sleepDuration rnd (randScript w.draws) l.currentBackoff],
           draws := w.draws + 1 })) := by
  unfold isTransient at ht
  simp [retryFunc, recFetch, recSys, h, ht]

theorem retryFunc_rec_terminal {R : Type} (rnd : ℚ → ℚ) (randScript : Nat → ℚ)
    (script : Nat → Value → FetchResult R) (id : Value) (l : Locals R) (w : Rec)
    (res : Option R) (e : Error)
    (h : script (w.fetches.length + 1) id = (res, some e)) (ht : isTransient e = false) :
    retryFunc (recSys rnd randScript) id (recFetch script) (l, w) =
      (some (retry.NonRetryableError e),
        ({ lastError := some e, resource := res, currentBackoff := l.currentBackoff },
         { w with fetches := w.fetches ++ [id] })) := by
  unfold isTransient at ht
  simp [retryFunc, recFetch, recSys, h, ht]

theorem retryFunc_rec_success {R : Type} (rnd : ℚ → ℚ) (randScript : Nat → ℚ)
    (script : Nat → Value → FetchResult R) (id : Value) (l : Locals R) (w : Rec)
    (res : Option R)
    (h : script (w.fetches.length + 1) id = (res, none)) :
    retryFunc (recSys rnd randScript) id (recFetch script) (l, w) =
      (none,
        ({ lastError := none, resource := res, currentBackoff := l.currentBackoff },
         { w with fetches := w.fetches ++ [id] })) := by
  simp [retryFunc, recFetch, recSys, h]

theorem step_stateAfter {R : Type} (rnd : ℚ → ℚ) (randScript : Nat → ℚ)
    (script : Nat → Value → FetchResult R) (id : Value) (n : Nat)
    (h : TransientAt script id (n + 1)) :
    retryFunc (recSys rnd randScript) id (recFetch script)
        (localsAfter rnd script id n, worldAfter rnd randScript id n) =
      (some (retry.RetryableError ((script (n + 1) id).2.getD "")),
        (localsAfter rnd script id (n + 1), worldAfter rnd randScript id (n + 1))) := by
  obtain ⟨res, e, hs, ht⟩ := h
  have hlen : (worldAfter rnd randScript id n).fetches.length = n := by simp [worldAfter]
  rw [retryFunc_rec_transient rnd randScript script id _ _ res e (by rw [hlen]; exact hs) ht]
  have hcb : (localsAfter rnd script id n).currentBackoff = backoffAfter rnd n := by
    cases n <;> simp [localsAfter, Locals.init, backoffAfter]
  rw [hcb]
  have hsucc : localsAfter rnd script id (n + 1) =
      { lastError := (script (n + 1) id).2, resource := (script (n + 1) id).1,
        currentBackoff := backoffAfter rnd (n + 1) } := rfl
  rw [hsucc]
  simp [worldAfter, hs, List.range_succ, backoffAfter,
    Function.iterate_succ_apply', List.replicate_succ']

theorem iterate_stateAfter {R : Type} (rnd : ℚ → ℚ) (randScript : Nat → ℚ)
    (script : Nat → Value → FetchResult R) (id : Value) (n : Nat)
    (h : ∀ i, 1 ≤ i → i ≤ n → TransientAt script id i) :
    (retry.step (retryFunc (recSys rnd randScript) id (recFetch script)))^[n]
        (Locals.init R, Rec.start) =
      (localsAfter rnd script id n, worldAfter rnd randScript id n) := by
  induction n with
  | zero => simp [localsAfter, worldAfter, Rec.start]
  | succ n ih =>
    rw [Function.iterate_succ_apply', ih (fun i h1 h2 => h i h1 (by omega))]
    simp [retry.step, step_stateAfter rnd randScript script id n (h (n + 1) (by omega) (by omega))]

theorem wait_unfold {R : Type} (rnd : ℚ → ℚ) (randScript : Nat → ℚ)
    (script : Nat → Value → FetchResult R) (id : Value) (deadline : Nat) :
    recRun rnd randScript script deadline id =
      match retry.retryLoop (retryFunc (recSys rnd randScript) id (recFetch script)) deadline none
          (Locals.init R, Rec.start) with
      | (some _, (l, w1)) =>
        ((none, [{ Severity := Severity.Error, Summary := waitErrorText id l.lastError,
                   Detail := "" }]), w1)
      | (none, (l, w1)) => ((l.resource, []), w1) := by
  simp only [recRun, WaitForResourceToBeAvailable, retry.RetryContext, Locals.init]
  split <;> simp_all [diag.FromErr]

theorem run_transient_start {R : Type} (rnd : ℚ → ℚ) (randScript : Nat → ℚ)
    (script : Nat → Value → FetchResult R) (id : Value) (n m : Nat)
    (h : ∀ i, 1 ≤ i → i ≤ n → TransientAt script id i) :
    ∃ re1, retry.retryLoop (retryFunc (recSys rnd randScript) id (recFetch script)) (n + m) none
        (Locals.init R, Rec.start) =
      retry.retryLoop (retryFunc (recSys rnd randScript) id (recFetch script)) m re1
        (localsAfter rnd script id n, worldAfter rnd randScript id n) := by
  obtain ⟨re1, h1⟩ := retry.retryLoop_skip (retryFunc (recSys rnd randScript) id (recFetch script))
    n m none (Locals.init R, Rec.start) (by
      intro i hi
      rw [iterate_stateAfter rnd randScript script id i (fun j h1 h2 => h j h1 (by omega)),
        step_stateAfter rnd randScript script id i (h (i + 1) (by omega) (by omega))]
      exact ⟨_, rfl⟩)
  rw [iterate_stateAfter rnd randScript script id n h] at h1
  exact ⟨re1, h1⟩

/-- C1 (eventual success).  If attempts `1 .. k-1` return errors whose text contains
"404" or "410" and attempt `k` returns `(r, nil)`, and the deadline leaves room for `k`
attempts, the waiter returns exactly `r` with empty diagnostics, having called the fetch
function exactly `k` times (always on the given identifier) and slept exactly `k-1` times. -/
theorem C1_eventual_success {R : Type} (rnd : ℚ → ℚ) (randScript : Nat → ℚ)
    (script : Nat → Value → FetchResult R) (id : Value) (k deadline : Nat) (r : Option R)
    (hk : 1 ≤ k)
    (htrans : ∀ i, 1 ≤ i → i < k →
      ∃ res e, script i id = (res, some e) ∧
        (strings.Contains e "404" || strings.Contains e "410") = true)
    (hsucc : script k id = (r, none)) (hdl : k ≤ deadline) :
    (recRun rnd randScript script deadline id).1 = (r, []) ∧
    (recRun rnd randScript script deadline id).2.fetches = List.replicate k id ∧
    (recRun rnd randScript script deadline id).2.fetches.length = k ∧
    (recRun rnd randScript script deadline id).2.sleeps.length = k - 1 := by
  obtain ⟨n, rfl⟩ : ∃ n, k = n + 1 := ⟨k - 1, by omega⟩
  obtain ⟨m, rfl⟩ : ∃ m, deadline = n + (m + 1) := ⟨deadline - (n + 1), by omega⟩
  obtain ⟨re1, hrun⟩ := run_transient_start rnd randScript script id n (m + 1)
    (fun i h1 h2 => htrans i h1 (by omega))
  have hlen : (worldAfter rnd randScript id n).fetches.length = n := by simp [worldAfter]
  have hstep := retryFunc_rec_success rnd randScript script id (localsAfter rnd script id n)
    (worldAfter rnd randScript id n) r (by rw [hlen]; exact hsucc)
  rw [wait_unfold, hrun, retry.retryLoop, hstep]
  simp [worldAfter, List.replicate_succ']

theorem recRun_terminal {R : Type} (rnd : ℚ → ℚ) (randScript : Nat → ℚ)
    (script : Nat → Value → FetchResult R) (id : Value) (deadline : Nat)
    (res : Option R) (e : Error)
    (hdl : 1 ≤ deadline)
    (hfirst : script 1 id = (res, some e))
    (h404 : strings.Contains e "404" = false) (h410 : strings.Contains e "410" = false) :
    (recRun rnd randScript script deadline id).1 =
      (none, [{ Severity := Severity.Error,
                Summary := "error waiting for resource with ID \x27" ++ id.fmtV ++
                  "\x27 to become available: " ++ e,
                Detail := "" }]) ∧
    (recRun rnd randScript script deadline id).2.fetches = [id] ∧
    (recRun rnd randScript script deadline id).2.sleeps = [] := by
  obtain ⟨m, rfl⟩ : ∃ m, deadline = m + 1 := ⟨deadline - 1, by omega⟩
  have hstep := retryFunc_rec_terminal rnd randScript script id (Locals.init R) Rec.start res e
    (by simpa [Rec.start] using hfirst) (by simp [isTransient, h404, h410])
  rw [wait_unfold, retry.retryLoop, hstep]
  simp [retry.NonRetryableError, Rec.start, waitErrorText, fmtErr]

theorem recRun_deadline {R : Type} (rnd : ℚ → ℚ) (randScript : Nat → ℚ)
    (script : Nat → Value → FetchResult R) (id : Value) (m : Nat)
    (hm : 1 ≤ m)
    (htrans : ∀ i, 1 ≤ i → i ≤ m →
      ∃ res e, script i id = (res, some e) ∧
        (strings.Contains e "404" || strings.Contains e "410") = true) :
    (recRun rnd randScript script m id).2.fetches = List.replicate m id ∧
    (recRun rnd randScript script m id).2.fetches.length = m ∧
    ∃ res e, script m id = (res, some e) ∧
      (recRun rnd randScript script m id).1 =
        (none, [{ Severity := Severity.Error,
                  Summary := "error waiting for resource with ID \x27" ++ id.fmtV ++
                    "\x27 to become available: " ++ e,
                  Detail := "" }]) := by
  obtain ⟨n, rfl⟩ : ∃ n, m = n + 1 := ⟨m - 1, by omega⟩
  obtain ⟨re1, hrun⟩ := run_transient_start rnd randScript script id (n + 1) 0 htrans
  obtain ⟨res, e, hs, _⟩ := htrans (n + 1) (by omega) (by omega)
  have hl : (localsAfter rnd script id (n + 1)).lastError = some e := by
    simp [localsAfter, hs]
  rw [wait_unfold, show n + 1 = n + 1 + 0 by omega, hrun]
  refine ⟨by simp [retry.retryLoop, worldAfter], by simp [retry.retryLoop, worldAfter], res, e, hs, ?_⟩
  simp [retry.retryLoop, hl, waitErrorText, fmtErr]


/-- C2 (terminal fail-fast).  If the first attempt returns an error `e` whose text contains
neither "404" nor "410", then, whatever positive number of attempts the deadline would
allow, the waiter calls the fetch function exactly once, does not sleep, and returns a nil
resource with one error diagnostic whose summary ends with the text of `e`. -/
theorem C2_terminal_fail_fast {R : Type} (rnd : ℚ → ℚ) (randScript : Nat → ℚ)
    (script : Nat → Value → FetchResult R) (id : Value) (deadline : Nat)
    (res : Option R) (e : Error)
    (hdl : 1 ≤ deadline)
    (hfirst : script 1 id = (res, some e))
    (h404 : strings.Contains e "404" = false) (h410 : strings.Contains e "410" = false) :
    (recRun rnd randScript script deadline id).1 =
      (none, [{ Severity := Severity.Error,
                Summary := "error waiting for resource with ID \x27" ++ id.fmtV ++
                  "\x27 to become available: " ++ e,
                Detail := "" }]) ∧
    (recRun rnd randScript script deadline id).2.fetches = [id] ∧
    (recRun rnd randScript script deadline id).2.sleeps = [] :=
  recRun_terminal rnd randScript script id deadline res e hdl hfirst h404 h410

/-- C3 (deadline expiry).  If attempts `1 .. m` all return errors whose text contains "404"
or "410" and the deadline fires after attempt `m` (`m ≥ 1`), the waiter calls the fetch
function exactly `m` times and returns a nil resource with one error diagnostic whose
summary ends with the text of the error returned by attempt `m`. -/
theorem C3_deadline_expiry {R : Type} (rnd : ℚ → ℚ) (randScript : Nat → ℚ)
    (script : Nat → Value → FetchResult R) (id : Value) (m : Nat)
    (hm : 1 ≤ m)
    (htrans : ∀ i, 1 ≤ i → i ≤ m →
      ∃ res e, script i id = (res, some e) ∧
        (strings.Contains e "404" || strings.Contains e "410") = true) :
    (recRun rnd randScript script m id).2.fetches = List.replicate m id ∧
    (recRun rnd randScript script m id).2.fetches.length = m ∧
    ∃ res e, script m id = (res, some e) ∧
      (recRun rnd randScript script m id).1 =
        (none, [{ Severity := Severity.Error,
                  Summary := "error waiting for resource with ID \x27" ++ id.fmtV ++
                    "\x27 to become available: " ++ e,
                  Detail := "" }]) :=
  recRun_deadline rnd randScript script id m hm htrans

theorem retryFunc_rec_cases {R : Type} (rnd : ℚ → ℚ) (randScript : Nat → ℚ)
    (script : Nat → Value → FetchResult R) (id : Value) (l : Locals R) (w : Rec) :
    (∃ res, script (w.fetches.length + 1) id = (res, none) ∧
      retryFunc (recSys rnd randScript) id (recFetch script) (l, w) =
        (none, ({ lastError := none, resource := res, currentBackoff := l.currentBackoff },
          { w with fetches := w.fetches ++ [id] }))) ∨
    (∃ res e, script (w.fetches.length + 1) id = (res, some e) ∧
      retryFunc (recSys rnd randScript) id (recFetch script) (l, w) =
        (some (retry.RetryableError e),
          ({ lastError := some e, resource := res,
             currentBackoff := nextBackoff rnd l.currentBackoff },
           { fetches := w.fetches ++ [id],
             sleeps := w.sleeps ++ [sleepDuration rnd (randScript w.draws) l.currentBackoff],
             draws := w.draws + 1 }))) ∨
    (∃ res e, script (w.fetches.length + 1) id = (res, some e) ∧
      retryFunc (recSys rnd randScript) id (recFetch script) (l, w) =
        (some (retry.NonRetryableError e),
          ({ lastError := some e, resource := res, currentBackoff := l.currentBackoff },
           { w with fetches := w.fetches ++ [id] }))) := by
  rcases h : script (w.fetches.length + 1) id with ⟨res, _ | e⟩
  · exact Or.inl ⟨res, rfl, retryFunc_rec_success rnd randScript script id l w res h⟩
  · by_cases ht : isTransient e = true
    · exact Or.inr (Or.inl ⟨res, e, rfl,
        retryFunc_rec_transient rnd randScript script id l w res e h ht⟩)
    · exact Or.inr (Or.inr ⟨res, e, rfl,
        retryFunc_rec_terminal rnd randScript script id l w res e h (by simpa using ht)⟩)

theorem retryFunc_rec_fetches {R : Type} (rnd : ℚ → ℚ) (randScript : Nat → ℚ)
    (script : Nat → Value → FetchResult R) (id : Value) (s : Locals R × Rec) :
    (retryFunc (recSys rnd randScript) id (recFetch script) s).2.2.fetches =
      s.2.fetches ++ [id] := by
  obtain ⟨l, w⟩ := s
  rcases retryFunc_rec_cases rnd randScript script id l w with
    ⟨_, _, h⟩ | ⟨_, _, _, h⟩ | ⟨_, _, _, h⟩ <;> simp [h]

theorem retryFunc_rec_sleeps {R : Type} (rnd : ℚ → ℚ) (randScript : Nat → ℚ)
    (script : Nat → Value → FetchResult R) (id : Value) (s : Locals R × Rec) :
    ∃ rest, (retryFunc (recSys rnd randScript) id (recFetch script) s).2.2.sleeps =
      s.2.sleeps ++ rest := by
  obtain ⟨l, w⟩ := s
  rcases retryFunc_rec_cases rnd randScript script id l w with
    ⟨_, _, h⟩ | ⟨_, _, _, h⟩ | ⟨_, _, _, h⟩
  · exact ⟨[], by simp [h]⟩
  · exact ⟨[sleepDuration rnd (randScript w.draws) l.currentBackoff], by simp [h]⟩
  · exact ⟨[], by simp [h]⟩

theorem retryFunc_rec_none {R : Type} (rnd : ℚ → ℚ) (randScript : Nat → ℚ)
    (script : Nat → Value → FetchResult R) (id : Value) (s0 s1 : Locals R × Rec)
    (h : retryFunc (recSys rnd randScript) id (recFetch script) s0 = (none, s1)) :
    s1.2.fetches ≠ [] ∧ script s1.2.fetches.length id = (s1.1.resource, none) := by
  obtain ⟨l, w⟩ := s0
  rcases retryFunc_rec_cases rnd randScript script id l w with
    ⟨res, hs, h1⟩ | ⟨_, _, _, h1⟩ | ⟨_, _, _, h1⟩
  · rw [h1] at h
    obtain ⟨_, rfl⟩ := Prod.mk.inj h
    simpa using hs
  · rw [h1] at h; simp at h
  · rw [h1] at h; simp at h

theorem retryFunc_rec_some {R : Type} (rnd : ℚ → ℚ) (randScript : Nat → ℚ)
    (script : Nat → Value → FetchResult R) (id : Value) (s0 s1 : Locals R × Rec)
    (re : RetryError)
    (h : retryFunc (recSys rnd randScript) id (recFetch script) s0 = (some re, s1)) :
    (script s1.2.fetches.length id).2 ≠ none := by
  obtain ⟨l, w⟩ := s0
  rcases retryFunc_rec_cases rnd randScript script id l w with
    ⟨_, _, h1⟩ | ⟨res, e, hs, h1⟩ | ⟨res, e, hs, h1⟩
  · rw [h1] at h; simp at h
  · rw [h1] at h
    obtain ⟨_, rfl⟩ := Prod.mk.inj h
    simp [hs]
  · rw [h1] at h
    obtain ⟨_, rfl⟩ := Prod.mk.inj h
    simp [hs]

theorem wait_unfold_world {R W : Type} (sys : Sys W) (deadline : Nat) (id : Value)
    (check : APICallFunc R W) (w : W) :
    WaitForResourceToBeAvailable sys deadline id check w =
      match retry.retryLoop (retryFunc sys id check) deadline none (Locals.init R, w) with
      | (some _, (l, w1)) =>
        ((none, [{ Severity := Severity.Error, Summary := waitErrorText id l.lastError,
                   Detail := "" }]), w1)
      | (none, (l, w1)) => ((l.resource, []), w1) := by
  simp only [WaitForResourceToBeAvailable, retry.RetryContext, Locals.init]
  split <;> simp_all [diag.FromErr]

theorem retryFunc_none_world {R W : Type} (sys : Sys W) (id : Value) (check : APICallFunc R W)
    (s0 s1 : Locals R × W) (h : retryFunc sys id check s0 = (none, s1)) :
    check id s0.2 = ((s1.1.resource, none), s1.2) := by
  obtain ⟨l, w⟩ := s0
  rcases hc : check id w with ⟨⟨res, _ | e⟩, w1⟩
  · simp only [retryFunc, hc] at h
    obtain ⟨_, rfl⟩ := Prod.mk.inj h
    rfl
  · simp only [retryFunc, hc] at h
    split_ifs at h <;> simp at h

/-- C5 (no partial results).  For every fetch behaviour and every deadline, the waiter
either returns the resource of its last attempt, which succeeded, with empty diagnostics,
or returns a nil resource with non-empty diagnostics, all of error severity, in which case
no attempt was made or the last attempt returned an error.  The same dichotomy holds over
every world: empty diagnostics come with the resource of a fetch call that returned a nil
error, and otherwise the resource is nil and there is exactly one error diagnostic. -/
theorem C5_no_partial_results {R : Type} (rnd : ℚ → ℚ) (randScript : Nat → ℚ)
    (script : Nat → Value → FetchResult R) (id : Value) (deadline : Nat) :
    ((∃ r, (recRun rnd randScript script deadline id).1 = (r, []) ∧
        (recRun rnd randScript script deadline id).2.fetches ≠ [] ∧
        script (recRun rnd randScript script deadline id).2.fetches.length id = (r, none)) ∨
    ((recRun rnd randScript script deadline id).1.1 = none ∧
      (recRun rnd randScript script deadline id).1.2 ≠ [] ∧
      (∀ d ∈ (recRun rnd randScript script deadline id).1.2, d.Severity = Severity.Error) ∧
      ((recRun rnd randScript script deadline id).2.fetches = [] ∨
        (script (recRun rnd randScript script deadline id).2.fetches.length id).2 ≠ none))) ∧
    (∀ (W : Type) (sys : Sys W) (check : APICallFunc R W) (w : W),
      ((WaitForResourceToBeAvailable sys deadline id check w).1.2 = [] ∧
        ∃ w0, check id w0 =
          (((WaitForResourceToBeAvailable sys deadline id check w).1.1, none),
            (WaitForResourceToBeAvailable sys deadline id check w).2)) ∨
      ((WaitForResourceToBeAvailable sys deadline id check w).1.1 = none ∧
        ∃ d, (WaitForResourceToBeAvailable sys deadline id check w).1.2 = [d] ∧
          d.Severity = Severity.Error)) := by
  constructor
  · obtain ⟨-, hc⟩ := retry.retryLoop_cases
      (retryFunc (recSys rnd randScript) id (recFetch script))
      (fun _ => True) (fun _ _ => trivial) deadline none (Locals.init R, Rec.start) trivial
    rw [wait_unfold]
    rcases hout : retry.retryLoop (retryFunc (recSys rnd randScript) id (recFetch script))
      deadline none (Locals.init R, Rec.start) with ⟨err, l, w1⟩
    rw [hout] at hc
    rcases hc with ⟨herr, s0, -, hs0⟩ | ⟨herr, hc⟩
    · obtain ⟨h1, h2⟩ := retryFunc_rec_none rnd randScript script id s0 (l, w1) hs0
      simp only at herr
      subst herr
      exact Or.inl ⟨l.resource, rfl, h1, h2⟩
    · simp only at herr
      obtain ⟨e, rfl⟩ := Option.ne_none_iff_exists'.mp herr
      refine Or.inr ⟨rfl, by simp, by simp, ?_⟩
      rcases hc with hc | ⟨s0, re, -, hs0⟩
      · left
        have : w1 = Rec.start := by simpa using congrArg (fun p => p.2) hc
        simp [this, Rec.start]
      · right
        exact retryFunc_rec_some rnd randScript script id s0 (l, w1) re hs0
  · intro W sys check w
    obtain ⟨-, hc⟩ := retry.retryLoop_cases (retryFunc sys id check)
      (fun _ => True) (fun _ _ => trivial) deadline none (Locals.init R, w) trivial
    rw [wait_unfold_world]
    rcases hout : retry.retryLoop (retryFunc sys id check) deadline none (Locals.init R, w)
      with ⟨err, l, w1⟩
    rw [hout] at hc
    rcases hc with ⟨herr, s0, -, hs0⟩ | ⟨herr, -⟩
    · simp only at herr
      subst herr
      exact Or.inl ⟨rfl, s0.2, retryFunc_none_world sys id check s0 (l, w1) hs0⟩
    · simp only at herr
      obtain ⟨e, rfl⟩ := Option.ne_none_iff_exists'.mp herr
      exact Or.inr ⟨rfl, _, rfl, rfl⟩

theorem string_append_left_cancel (a b c : String) (h : a ++ b = a ++ c) : b = c := by
  have h1 := congrArg String.data h
  simp only [String.data_append] at h1
  exact String.ext (List.append_cancel_left h1)

theorem failureKind_wrapper (id : Value) (e : Error) :
    failureKind e [{ Severity := Severity.Error, Summary := failureWrapper id ++ e, Detail := "" }] =
      [(Severity.Error, (failureWrapper id).data, "")] := by
  simp [failureKind, String.data_append]

/-- C4, as amended.  A deadline expiry after only transient errors and a terminal fetch
error are reported in the same way: a nil resource and one error diagnostic with empty
detail whose summary is the fixed wrapper text for the identifier followed by the text of
the last fetch error.  Their kinds (the diagnostics with the wrapped text cut off) are
equal; the diagnostics differ only through the wrapped fetch error text. -/
theorem C4_same_failure_shape {R : Type} (rnd : ℚ → ℚ) (randScript : Nat → ℚ)
    (scriptA scriptB : Nat → Value → FetchResult R) (id : Value) (m deadline : Nat)
    (resB : Option R) (eB : Error)
    (hm : 1 ≤ m)
    (htransA : ∀ i, 1 ≤ i → i ≤ m →
      ∃ res e, scriptA i id = (res, some e) ∧
        (strings.Contains e "404" || strings.Contains e "410") = true)
    (hdl : 1 ≤ deadline)
    (hfirstB : scriptB 1 id = (resB, some eB))
    (h404 : strings.Contains eB "404" = false) (h410 : strings.Contains eB "410" = false) :
    ∃ resA eA, scriptA m id = (resA, some eA) ∧
      (recRun rnd randScript scriptA m id).1 =
        (none, [{ Severity := Severity.Error, Summary := failureWrapper id ++ eA,
                  Detail := "" }]) ∧
      (recRun rnd randScript scriptB deadline id).1 =
        (none, [{ Severity := Severity.Error, Summary := failureWrapper id ++ eB,
                  Detail := "" }]) ∧
      failureKind eA (recRun rnd randScript scriptA m id).1.2 =
        failureKind eB (recRun rnd randScript scriptB deadline id).1.2 ∧
      (recRun rnd randScript scriptA m id).1 ≠ (recRun rnd randScript scriptB deadline id).1 := by
  obtain ⟨-, -, resA, eA, hsA, hA⟩ := recRun_deadline rnd randScript scriptA id m hm htransA
  obtain ⟨hB, -, -⟩ :=
    recRun_terminal rnd randScript scriptB id deadline resB eB hdl hfirstB h404 h410
  obtain ⟨res1, e1, hs1, ht1⟩ := htransA m hm (le_refl m)
  have he : eA = e1 := by
    rw [hsA] at hs1
    simpa using congrArg Prod.snd hs1
  subst he
  have hne : eA ≠ eB := by
    intro h
    subst h
    simp [h404, h410] at ht1
  refine ⟨resA, eA, hsA, hA, hB, ?_, ?_⟩
  · rw [hA, hB]
    exact (failureKind_wrapper id eA).trans (failureKind_wrapper id eB).symm
  · rw [hA, hB]
    intro h
    have h1 : failureWrapper id ++ eA = failureWrapper id ++ eB := by
      simpa [failureWrapper] using h
    exact hne (string_append_left_cancel _ _ _ h1)

/-- C4, witness of the amended statement: identifier 42, "404 not found" until the deadline
fires after two attempts, against a first attempt returning "500 internal error". -/
theorem C4_same_failure_shape_witness :
    ∃ resA eA, alwaysError "404 not found" 2 (Value.int 42) = (resA, some eA) ∧
      (recRun id (fun _ => 0) (alwaysError "404 not found") 2 (Value.int 42)).1 =
        (none, [{ Severity := Severity.Error,
                  Summary := failureWrapper (Value.int 42) ++ eA, Detail := "" }]) ∧
      (recRun id (fun _ => 0) (alwaysError "500 internal error") 5 (Value.int 42)).1 =
        (none, [{ Severity := Severity.Error,
                  Summary := failureWrapper (Value.int 42) ++ "500 internal error",
                  Detail := "" }]) ∧
      failureKind eA (recRun id (fun _ => 0) (alwaysError "404 not found") 2 (Value.int 42)).1.2 =
        failureKind "500 internal error"
          (recRun id (fun _ => 0) (alwaysError "500 internal error") 5 (Value.int 42)).1.2 ∧
      (recRun id (fun _ => 0) (alwaysError "404 not found") 2 (Value.int 42)).1 ≠
        (recRun id (fun _ => 0) (alwaysError "500 internal error") 5 (Value.int 42)).1 :=
  C4_same_failure_shape id (fun _ => 0) (alwaysError "404 not found")
    (alwaysError "500 internal error") (Value.int 42) 2 5 none "500 internal error"
    (by decide) (fun _ _ _ => ⟨none, "404 not found", rfl, by decide⟩) (by decide) rfl
    (by decide) (by decide)

/-- C4, counterexample to the claim as stated.  For identifier 42, the diagnostics of a
deadline expiry after one "404 not found" and those of a terminal "500 internal error"
have the same kind: same severity, same detail, same wrapper text around the fetch error. -/
theorem C4_counterexample :
    (recRun id (fun _ => 0) (alwaysError "404 not found") 1 (Value.int 42)).1 =
      (none, [{ Severity := Severity.Error,
                Summary := "error waiting for resource with ID \x2742\x27 to become available: " ++
                  "404 not found",
                Detail := "" }]) ∧
    (recRun id (fun _ => 0) (alwaysError "500 internal error") 1 (Value.int 42)).1 =
      (none, [{ Severity := Severity.Error,
                Summary := "error waiting for resource with ID \x2742\x27 to become available: " ++
                  "500 internal error",
                Detail := "" }]) ∧
    ¬ (failureKind "404 not found"
          (recRun id (fun _ => 0) (alwaysError "404 not found") 1 (Value.int 42)).1.2 ≠
        failureKind "500 internal error"
          (recRun id (fun _ => 0) (alwaysError "500 internal error") 1 (Value.int 42)).1.2) := by
  refine ⟨by decide, by decide, ?_⟩
  decide

theorem wait_congr {R W : Type} (sys : Sys W) (deadline : Nat) (id : Value)
    (f g : APICallFunc R W) (h : ∀ w, f id w = g id w) (w : W) :
    WaitForResourceToBeAvailable sys deadline id f w =
      WaitForResourceToBeAvailable sys deadline id g w := by
  have hfg : retryFunc sys id f = retryFunc sys id g := by
    funext s
    obtain ⟨l, w0⟩ := s
    simp [retryFunc, h]
  simp [WaitForResourceToBeAvailable, hfg]

theorem recRun_world {R : Type} (rnd : ℚ → ℚ) (randScript : Nat → ℚ)
    (script : Nat → Value → FetchResult R) (id : Value) (deadline : Nat) :
    (recRun rnd randScript script deadline id).2 =
      (retry.retryLoop (retryFunc (recSys rnd randScript) id (recFetch script)) deadline none
        (Locals.init R, Rec.start)).2.2 := by
  rw [wait_unfold]
  split <;> simp_all

/-- C9 (transparent adapters).  `ByResourceIntID` and `ByResourceStringID` return the same
result and leave the same world (hence make the same calls) as the waiter run directly with
the fetch function that ignores its argument and calls the API on the given identifier; and
in the recording world every identifier handed to the fetch function is the one the waiter
was given. -/
theorem C9_adapters_transparent {R W : Type} (sys : Sys W) (deadline : Nat) (w : W) :
    (∀ (resourceID : Int) (apiCall : APICallFuncInt R W),
      ByResourceIntID sys deadline resourceID apiCall w =
        WaitForResourceToBeAvailable sys deadline (Value.int resourceID)
          (fun _ => apiCall resourceID) w) ∧
    (∀ (resourceID : String) (apiCall : APICallFuncString R W),
      ByResourceStringID sys deadline resourceID apiCall w =
        WaitForResourceToBeAvailable sys deadline (Value.str resourceID)
          (fun _ => apiCall resourceID) w) ∧
    (∀ (rnd : ℚ → ℚ) (randScript : Nat → ℚ) (script : Nat → Value → FetchResult R)
        (id : Value),
      ∀ v ∈ (recRun rnd randScript script deadline id).2.fetches, v = id) := by
  refine ⟨?_, ?_, ?_⟩
  · intro resourceID apiCall
    exact wait_congr sys deadline _ _ _ (fun _ => rfl) w
  · intro resourceID apiCall
    exact wait_congr sys deadline _ _ _ (fun _ => rfl) w
  · intro rnd randScript script id
    rw [recRun_world]
    exact (retry.retryLoop_cases (retryFunc (recSys rnd randScript) id (recFetch script))
      (fun s => ∀ v ∈ s.2.fetches, v = id)
      (fun s hs => by
        show ∀ v ∈ (retryFunc (recSys rnd randScript) id (recFetch script) s).2.2.fetches, v = id
        rw [retryFunc_rec_fetches]
        intro v hv
        rcases List.mem_append.mp hv with hv | hv
        · exact hs v hv
        · simpa using hv)
      deadline none (Locals.init R, Rec.start) (by simp [Rec.start])).1


/-! ## Backoff arithmetic -/

theorem rnd_int_exact {rnd : ℚ → ℚ} (hr : Float64Rounding rnd) (z : Int) (h0 : 0 ≤ z)
    (h1 : z ≤ 4 * maxBackoff) : rnd (z : ℚ) = (z : ℚ) := by
  obtain ⟨n, rfl⟩ := Int.eq_ofNat_of_zero_le h0
  have hn : 2 * n < 2 ^ 53 := by
    simp only [maxBackoff, Second] at h1
    norm_num
    omega
  have h := hr.2 (2 * n) hn
  have hq : (((2 * n : ℕ) : ℚ)) / 2 = ((n : ℤ) : ℚ) := by
    push_cast
    ring
  rw [hq] at h
  exact h

theorem toDuration_intCast (z : Int) : toDuration (z : ℚ) = z := by
  simp [toDuration]

theorem nextBackoff_exact {rnd : ℚ → ℚ} (hr : Float64Rounding rnd) (b : Int) (h0 : 0 ≤ b)
    (h1 : b ≤ maxBackoff) : nextBackoff rnd b = min (2 * b) maxBackoff := by
  have hmax : (0 : Int) ≤ maxBackoff := by decide
  have hb : rnd (b : ℚ) = (b : ℚ) := rnd_int_exact hr b h0 (by omega)
  have h2 : rnd (((2 * b : ℤ)) : ℚ) = ((2 * b : ℤ) : ℚ) :=
    rnd_int_exact hr (2 * b) (by omega) (by omega)
  have hq : (b : ℚ) * 2 = ((2 * b : ℤ) : ℚ) := by
    push_cast
    ring
  simp only [nextBackoff, toFloat64, fmul, backoffFactor, hb, hq, h2, toDuration_intCast]
  simp only [min_def]
  split_ifs <;> omega

theorem backoffAfter_eq {rnd : ℚ → ℚ} (hr : Float64Rounding rnd) (n : Nat) :
    backoffAfter rnd n = min (initialBackoff * 2 ^ n) maxBackoff := by
  induction n with
  | zero => simp [backoffAfter, initialBackoff, maxBackoff, Second]
  | succ n ih =>
    have hp : (0 : Int) < 2 ^ n := by positivity
    have hstep : backoffAfter rnd (n + 1) = nextBackoff rnd (backoffAfter rnd n) := by
      simp [backoffAfter, Function.iterate_succ_apply']
    have hlo : 0 ≤ min (initialBackoff * 2 ^ n) maxBackoff := by
      simp only [initialBackoff, maxBackoff, Second, min_def]
      split_ifs <;> omega
    rw [hstep, ih, nextBackoff_exact hr _ hlo (min_le_right _ _), pow_succ]
    simp only [initialBackoff, maxBackoff, Second, min_def]
    split_ifs <;> omega

theorem backoffAfter_spec {rnd : ℚ → ℚ} (hr : Float64Rounding rnd) (j : Nat) :
    backoffAfter rnd j = specBackoff (j + 2) := by
  rw [backoffAfter_eq hr]
  simp [specBackoff]

theorem specBackoff_capped (k : Nat) (hk : 7 ≤ k) : specBackoff k = 30 * Second := by
  obtain ⟨j, rfl⟩ : ∃ j, k = j + 7 := ⟨k - 7, by omega⟩
  have hp : (0 : Int) < 2 ^ j := by positivity
  have h : (2 : Int) ^ (j + 7 - 2) = 32 * 2 ^ j := by
    rw [show j + 7 - 2 = j + 5 by omega, pow_add]
    norm_num
    ring
  simp only [specBackoff, h, initialBackoff, maxBackoff, Second, min_def]
  split_ifs <;> omega

theorem specBackoff_mono (k : Nat) (hk : 2 ≤ k) : specBackoff k ≤ specBackoff (k + 1) := by
  obtain ⟨j, rfl⟩ : ∃ j, k = j + 2 := ⟨k - 2, by omega⟩
  have hp : (0 : Int) < 2 ^ j := by positivity
  have h1 : j + 2 - 2 = j := by omega
  have h2 : j + 2 + 1 - 2 = j + 1 := by omega
  simp only [specBackoff, h1, h2, pow_succ, initialBackoff, maxBackoff, Second, min_def]
  split_ifs <;> omega

theorem recRun_sleeps_extend {R : Type} (rnd : ℚ → ℚ) (randScript : Nat → ℚ)
    (script : Nat → Value → FetchResult R) (id : Value) (n deadline : Nat)
    (hn : n ≤ deadline)
    (htrans : ∀ i, 1 ≤ i → i ≤ n → TransientAt script id i) :
    ∃ rest, (recRun rnd randScript script deadline id).2.sleeps =
      (List.range n).map (fun j => sleepDuration rnd (randScript j) (backoffAfter rnd j)) ++
        rest := by
  obtain ⟨m, rfl⟩ : ∃ m, deadline = n + m := ⟨deadline - n, by omega⟩
  obtain ⟨re1, hrun⟩ := run_transient_start rnd randScript script id n m htrans
  rw [recRun_world, hrun]
  exact (retry.retryLoop_cases (retryFunc (recSys rnd randScript) id (recFetch script))
    (fun s => ∃ rest, s.2.sleeps =
      (List.range n).map (fun j => sleepDuration rnd (randScript j) (backoffAfter rnd j)) ++ rest)
    (fun s hs => by
      obtain ⟨rest, hrest⟩ := hs
      obtain ⟨more, hmore⟩ := retryFunc_rec_sleeps rnd randScript script id s
      exact ⟨rest ++ more, by rw [hmore, hrest, List.append_assoc]⟩)
    m re1 (localsAfter rnd script id n, worldAfter rnd randScript id n)
    ⟨[], by simp [worldAfter]⟩).1

/-- C6 (bounded exponential growth).  Under exact `float64` arithmetic on the values
involved, in a run whose attempts `1 .. n` return transient errors, the sleep before
attempt `k` (`2 ≤ k ≤ n+1`) is the jittered sleep over the base
`min(initialBackoff * 2^(k-2), maxBackoff)`, which is the value of `currentBackoff` at that
point; the bases before attempts 2..6 are 1s, 2s, 4s, 8s, 16s, the base before attempt 7
and every later one is 30s, and the base is non-decreasing and never exceeds 30s. -/
theorem C6_bounded_exponential_growth {R : Type} (rnd : ℚ → ℚ) (randScript : Nat → ℚ)
    (script : Nat → Value → FetchResult R) (id : Value) (n deadline : Nat)
    (hr : Float64Rounding rnd) (hn : n ≤ deadline)
    (htrans : ∀ i, 1 ≤ i → i ≤ n →
      ∃ res e, script i id = (res, some e) ∧
        (strings.Contains e "404" || strings.Contains e "410") = true) :
    (∀ k, 2 ≤ k → k ≤ n + 1 →
      (recRun rnd randScript script deadline id).2.sleeps[k - 2]? =
        some (sleepDuration rnd (randScript (k - 2)) (specBackoff k))) ∧
    (∀ k, 2 ≤ k → backoffAfter rnd (k - 2) = specBackoff k) ∧
    specBackoff 2 = 1 * Second ∧ specBackoff 3 = 2 * Second ∧ specBackoff 4 = 4 * Second ∧
    specBackoff 5 = 8 * Second ∧ specBackoff 6 = 16 * Second ∧
    (∀ k, 7 ≤ k → specBackoff k = 30 * Second) ∧
    (∀ k, 2 ≤ k → specBackoff k ≤ specBackoff (k + 1)) ∧
    (∀ k, specBackoff k ≤ 30 * Second) := by
  have hspec : ∀ k, 2 ≤ k → backoffAfter rnd (k - 2) = specBackoff k := by
    intro k hk
    obtain ⟨j, rfl⟩ : ∃ j, k = j + 2 := ⟨k - 2, by omega⟩
    simpa using backoffAfter_spec hr j
  refine ⟨?_, hspec, by decide, by decide, by decide, by decide, by decide,
    specBackoff_capped, specBackoff_mono, fun k => min_le_right _ _⟩
  intro k hk1 hk2
  obtain ⟨rest, hrest⟩ := recRun_sleeps_extend rnd randScript script id n deadline hn htrans
  rw [hrest, List.getElem?_append_left (by simp; omega)]
  simp [List.getElem?_map, List.getElem?_range, show k - 2 < n by omega, hspec k hk1]

/-- C6, witness: seven "404 not found" in a row on identifier 42, deadline after the
seventh attempt, exact arithmetic, no jitter. -/
theorem C6_bounded_exponential_growth_witness :
    (∀ k, 2 ≤ k → k ≤ 7 + 1 →
      (recRun id (fun _ => 0) (alwaysError "404 not found") 7 (Value.int 42)).2.sleeps[k - 2]? =
        some (sleepDuration id ((fun _ => (0 : ℚ)) (k - 2)) (specBackoff k))) ∧
    (∀ k, 2 ≤ k → backoffAfter id (k - 2) = specBackoff k) ∧
    specBackoff 2 = 1 * Second ∧ specBackoff 3 = 2 * Second ∧ specBackoff 4 = 4 * Second ∧
    specBackoff 5 = 8 * Second ∧ specBackoff 6 = 16 * Second ∧
    (∀ k, 7 ≤ k → specBackoff k = 30 * Second) ∧
    (∀ k, 2 ≤ k → specBackoff k ≤ specBackoff (k + 1)) ∧
    (∀ k, specBackoff k ≤ 30 * Second) :=
  C6_bounded_exponential_growth id (fun _ => 0) (alwaysError "404 not found") (Value.int 42) 7 7
    ⟨monotone_id, fun _ _ => rfl⟩ (le_refl 7)
    (fun _ _ _ => ⟨none, "404 not found", rfl, by decide⟩)

/-- C7 (jitter bound).  Every base backoff reached by the loop lies between 1s and 30s, and
for every such base `b` and every draw `u` in `[0, 1)` the duration slept,
`b + trunc(u * 0.5 * b)` computed in `float64`, lies in `[b, 1.5 * b]`. -/
theorem C7_jitter_bound (rnd : ℚ → ℚ) (u : ℚ) (b : Int)
    (hr : Float64Rounding rnd) (hu0 : 0 ≤ u) (hu1 : u < 1)
    (hb0 : 1 * Second ≤ b) (hb1 : b ≤ 30 * Second) :
    (∀ n, 1 * Second ≤ backoffAfter rnd n ∧ backoffAfter rnd n ≤ 30 * Second) ∧
    b ≤ sleepDuration rnd u b ∧
    ((sleepDuration rnd u b : Int) : ℚ) ≤ 3 / 2 * (b : ℚ) := by
  have hbpos : (0 : Int) ≤ b := by
    simp only [Second] at hb0
    omega
  have hbq : (0 : ℚ) ≤ (b : ℚ) := by exact_mod_cast hbpos
  have hzero : rnd 0 = 0 := by simpa using hr.2 0 (by norm_num)
  have hhalf : rnd (1 / 2) = 1 / 2 := by simpa using hr.2 1 (by norm_num)
  have hbexact : rnd (b : ℚ) = (b : ℚ) :=
    rnd_int_exact hr b hbpos (by simp only [maxBackoff, Second] at *; omega)
  have hbhalf : rnd ((b : ℚ) / 2) = (b : ℚ) / 2 := by
    obtain ⟨m, rfl⟩ := Int.eq_ofNat_of_zero_le hbpos
    have hm : m < 2 ^ 53 := by
      simp only [Second] at hb1
      norm_num
      omega
    simpa using hr.2 m hm
  have hx0 : 0 ≤ rnd (u * jitterFactor) := by
    have := hr.1 (show (0 : ℚ) ≤ u * jitterFactor by unfold jitterFactor; positivity)
    rwa [hzero] at this
  have hx1 : rnd (u * jitterFactor) ≤ 1 / 2 := by
    have := hr.1 (show u * jitterFactor ≤ 1 / 2 by unfold jitterFactor; linarith)
    rwa [hhalf] at this
  have hy0 : 0 ≤ rnd (rnd (u * jitterFactor) * (b : ℚ)) := by
    have := hr.1 (show (0 : ℚ) ≤ rnd (u * jitterFactor) * (b : ℚ) from mul_nonneg hx0 hbq)
    rwa [hzero] at this
  have hy1 : rnd (rnd (u * jitterFactor) * (b : ℚ)) ≤ (b : ℚ) / 2 := by
    have := hr.1 (show rnd (u * jitterFactor) * (b : ℚ) ≤ (b : ℚ) / 2 by nlinarith)
    rwa [hbhalf] at this
  have hsleep : sleepDuration rnd u b = b + ⌊rnd (rnd (u * jitterFactor) * (b : ℚ))⌋ := by
    simp [sleepDuration, toFloat64, fmul, toDuration, hbexact, hy0]
  refine ⟨?_, ?_, ?_⟩
  · intro n
    have hp : (0 : Int) < 2 ^ n := by positivity
    rw [backoffAfter_eq hr]
    simp only [initialBackoff, maxBackoff, Second, min_def]
    constructor <;> split_ifs <;> omega
  · rw [hsleep]
    have := Int.floor_nonneg.mpr hy0
    omega
  · rw [hsleep]
    have := Int.floor_le (rnd (rnd (u * jitterFactor) * (b : ℚ)))
    push_cast
    linarith

/-- C7, witness: exact arithmetic, draw 1/2, base one second. -/
theorem C7_jitter_bound_witness :
    (∀ n, 1 * Second ≤ backoffAfter id n ∧ backoffAfter id n ≤ 30 * Second) ∧
    Second ≤ sleepDuration id (1 / 2) Second ∧
    ((sleepDuration id (1 / 2) Second : Int) : ℚ) ≤ 3 / 2 * (Second : ℚ) :=
  C7_jitter_bound id (1 / 2) Second ⟨monotone_id, fun _ _ => rfl⟩ (by norm_num) (by norm_num)
    (by decide) (by decide)


/-! ## Webhook diff validation -/

namespace webhook

theorem auth_no_violation (diff : ResourceDiff) (hwt : WellTyped diff)
    (h : ¬ AuthViolation diff) : validateAuthenticationRequirements diff = some none := by
  obtain ⟨⟨name, hname⟩, hauth, -⟩ := hwt
  unfold AuthViolation Missing at h
  unfold validateAuthenticationRequirements
  rcases hA : diff.GetOk "authentication_type" with ⟨av, aok⟩
  rcases hU : diff.GetOk "username" with ⟨uv, uok⟩
  rcases hP : diff.GetOk "password" with ⟨pv, pok⟩
  rw [hA] at hauth h
  rw [hU, hP] at h
  cases aok with
  | false => simp [hname, assertString]
  | true =>
    obtain ⟨a, ha⟩ := hauth rfl
    simp only at ha
    subst ha
    by_cases hb : a = "Basic Authentication"
    · subst hb
      simp only [true_and, not_or, Prod.mk.injEq, and_self] at h
      cases uok <;> cases pok <;> simp_all [assertString]
    · simp [hname, assertString, hb]

theorem auth_violation_username (diff : ResourceDiff) (name : String)
    (hname : diff.Get "name" = Value.str name)
    (h : AuthViolation diff) (hu : Missing diff "username") :
    validateAuthenticationRequirements diff =
      some (some ("in \x27jamfpro_webhook." ++ name ++
        "\x27: when \x27authentication_type\x27 is set to \x27Basic Authentication\x27, \x27username\x27 must be provided")) := by
  obtain ⟨hA, -⟩ := h
  unfold Missing at hu
  unfold validateAuthenticationRequirements
  rcases hU : diff.GetOk "username" with ⟨uv, uok⟩
  rw [hU] at hu
  rcases hu with hu | hu <;> simp_all [assertString]

theorem auth_violation_password (diff : ResourceDiff) (name : String)
    (hname : diff.Get "name" = Value.str name)
    (h : AuthViolation diff) (hu : ¬ Missing diff "username") :
    validateAuthenticationRequirements diff =
      some (some ("in \x27jamfpro_webhook." ++ name ++
        "\x27: when \x27authentication_type\x27 is set to \x27Basic Authentication\x27, \x27password\x27 must be provided")) := by
  obtain ⟨hA, hm⟩ := h
  have hp : Missing diff "password" := hm.resolve_left hu
  unfold Missing at hu hp
  unfold validateAuthenticationRequirements
  rcases hU : diff.GetOk "username" with ⟨uv, uok⟩
  rcases hP : diff.GetOk "password" with ⟨pv, pok⟩
  rw [hU] at hu
  rw [hP] at hp
  simp only [not_or] at hu
  rcases hp with hp | hp <;> simp_all [assertString]

theorem smart_group_eval (diff : ResourceDiff) (hwt : WellTyped diff) :
    (SmartGroupViolation diff → ∃ e, validateSmartGroupIDRequirement diff = some (some e)) ∧
    (¬ SmartGroupViolation diff → validateSmartGroupIDRequirement diff = some none) := by
  obtain ⟨⟨name, hname⟩, -, hevent⟩ := hwt
  unfold SmartGroupViolation
  unfold validateSmartGroupIDRequirement
  rcases hE : diff.GetOk "event" with ⟨ev, eok⟩
  rcases hS : diff.GetOk "smart_group_id" with ⟨sv, sok⟩
  rw [hE] at hevent
  cases eok with
  | false => simp [hname, assertString]
  | true =>
    obtain ⟨e, he⟩ := hevent rfl
    simp only at he
    subst he
    simp only [hname, assertString, smartGroupLoop, requiredEvents, hS]
    by_cases h1 : e = "SmartGroupComputerMembershipChange"
    · subst h1
      cases sok <;> by_cases h0 : sv = Value.int 0 <;> simp [h0]
    · by_cases h2 : e = "SmartGroupMobileDeviceMembershipChange"
      · subst h2
        cases sok <;> by_cases h0 : sv = Value.int 0 <;> simp [h0]
      · by_cases h3 : e = "SmartGroupUserMembershipChange"
        · subst h3
          cases sok <;> by_cases h0 : sv = Value.int 0 <;> simp [h0]
        · simp [h1, h2, h3]

end webhook

/-- C8 (webhook diff validation).  For a diff whose asserted keys hold strings,
`mainCustomDiffFunc` returns normally, and returns an error exactly when (a) basic
authentication is selected and the username or the password is unset or empty, or (b) a
smart-group event is selected and `smart_group_id` is unset or 0.  Under (a) the error is
the authentication error, whether or not (b) holds: the username message when the username
is missing, otherwise the password message.  Without (a) the result is that of the
smart-group check. -/
theorem C8_webhook_validation (diff : webhook.ResourceDiff) (hwt : webhook.WellTyped diff) :
    (∃ r, webhook.mainCustomDiffFunc diff = some r ∧
      (r ≠ none ↔ webhook.AuthViolation diff ∨ webhook.SmartGroupViolation diff)) ∧
    (∀ name, diff.Get "name" = Value.str name → webhook.AuthViolation diff →
      webhook.Missing diff "username" →
      webhook.mainCustomDiffFunc diff =
        some (some ("in \x27jamfpro_webhook." ++ name ++
          "\x27: when \x27authentication_type\x27 is set to \x27Basic Authentication\x27, \x27username\x27 must be provided"))) ∧
    (∀ name, diff.Get "name" = Value.str name → webhook.AuthViolation diff →
      ¬ webhook.Missing diff "username" →
      webhook.mainCustomDiffFunc diff =
        some (some ("in \x27jamfpro_webhook." ++ name ++
          "\x27: when \x27authentication_type\x27 is set to \x27Basic Authentication\x27, \x27password\x27 must be provided"))) ∧
    (webhook.AuthViolation diff →
      webhook.mainCustomDiffFunc diff = webhook.validateAuthenticationRequirements diff) ∧
    (¬ webhook.AuthViolation diff →
      webhook.mainCustomDiffFunc diff = webhook.validateSmartGroupIDRequirement diff) := by
  obtain ⟨name, hname⟩ := hwt.1
  have hU := webhook.auth_violation_username diff name hname
  have hP := webhook.auth_violation_password diff name hname
  have hN := webhook.auth_no_violation diff hwt
  obtain ⟨hS1, hS0⟩ := webhook.smart_group_eval diff hwt
  have hname_inj : ∀ n, diff.Get "name" = Value.str n → n = name := by
    intro n hn
    rw [hname] at hn
    exact (Value.str.inj hn).symm
  by_cases hA : webhook.AuthViolation diff
  · have hmain : webhook.mainCustomDiffFunc diff =
        webhook.validateAuthenticationRequirements diff := by
      by_cases hu : webhook.Missing diff "username"
      · simp [webhook.mainCustomDiffFunc, hU hA hu]
      · simp [webhook.mainCustomDiffFunc, hP hA hu]
    refine ⟨?_, ?_, ?_, fun _ => hmain, fun h => absurd hA h⟩
    · by_cases hu : webhook.Missing diff "username"
      · exact ⟨_, hmain.trans (hU hA hu), by simp [hA]⟩
      · exact ⟨_, hmain.trans (hP hA hu), by simp [hA]⟩
    · intro n hn _ hu
      rw [hname_inj n hn]
      exact hmain.trans (hU hA hu)
    · intro n hn _ hu
      rw [hname_inj n hn]
      exact hmain.trans (hP hA hu)
  · have hmain : webhook.mainCustomDiffFunc diff =
        webhook.validateSmartGroupIDRequirement diff := by
      by_cases hB : webhook.SmartGroupViolation diff
      · obtain ⟨e, he⟩ := hS1 hB
        simp [webhook.mainCustomDiffFunc, hN hA, he]
      · simp [webhook.mainCustomDiffFunc, hN hA, hS0 hB]
    refine ⟨?_, fun _ _ h => absurd h hA, fun _ _ h => absurd h hA, fun h => absurd h hA,
      fun _ => hmain⟩
    by_cases hB : webhook.SmartGroupViolation diff
    · obtain ⟨e, he⟩ := hS1 hB
      exact ⟨_, hmain.trans he, by simp [hB]⟩
    · exact ⟨_, hmain.trans (hS0 hB), by simp [hA, hB]⟩


/-- C8, witness: a diff named "hook" violating both (a) and (b); the username error is
the one returned. -/
theorem C8_webhook_validation_witness :
    webhook.WellTyped webhook.exampleDiff ∧
    webhook.AuthViolation webhook.exampleDiff ∧
    webhook.SmartGroupViolation webhook.exampleDiff ∧
    webhook.mainCustomDiffFunc webhook.exampleDiff =
      some (some ("in \x27jamfpro_webhook." ++ "hook" ++
        "\x27: when \x27authentication_type\x27 is set to \x27Basic Authentication\x27, \x27username\x27 must be provided")) :=
  have hwt : webhook.WellTyped webhook.exampleDiff :=
    ⟨⟨"hook", by decide⟩, fun _ => ⟨"Basic Authentication", by decide⟩,
      fun _ => ⟨"SmartGroupUserMembershipChange", by decide⟩⟩
  have hA : webhook.AuthViolation webhook.exampleDiff :=
    ⟨by decide, Or.inl (Or.inl (by decide))⟩
  have hB : webhook.SmartGroupViolation webhook.exampleDiff :=
    ⟨⟨by decide, Or.inr (Or.inr (by decide))⟩, Or.inl (by decide)⟩
  ⟨hwt, hA, hB,
    (C8_webhook_validation webhook.exampleDiff hwt).2.1 "hook" (by decide) hA
      (Or.inl (by decide))⟩

/-- C1, witness: identifier 42, "404 not found" twice, then the resource named "g1";
three attempts, two sleeps, the resource is returned. -/
theorem C1_eventual_success_witness :
    (recRun id (fun _ => 0) exampleScript 10 (Value.int 42)).1 =
      (some { Name := "g1" }, []) ∧
    (recRun id (fun _ => 0) exampleScript 10 (Value.int 42)).2.fetches =
      List.replicate 3 (Value.int 42) ∧
    (recRun id (fun _ => 0) exampleScript 10 (Value.int 42)).2.fetches.length = 3 ∧
    (recRun id (fun _ => 0) exampleScript 10 (Value.int 42)).2.sleeps.length = 3 - 1 :=
  C1_eventual_success id (fun _ => 0) exampleScript (Value.int 42) 3 10
    (some { Name := "g1" }) (by decide)
    (fun i _ h2 => ⟨none, "404 not found", by simp [exampleScript, h2], by decide⟩)
    (by decide) (by decide)

/-- C2, witness: identifier "abc", every attempt returns "403 forbidden". -/
theorem C2_terminal_fail_fast_witness :
    (recRun id (fun _ => 0) (alwaysError "403 forbidden") 10 (Value.str "abc")).1 =
      (none, [{ Severity := Severity.Error,
                Summary := "error waiting for resource with ID \x27" ++
                  (Value.str "abc").fmtV ++ "\x27 to become available: " ++ "403 forbidden",
                Detail := "" }]) ∧
    (recRun id (fun _ => 0) (alwaysError "403 forbidden") 10 (Value.str "abc")).2.fetches =
      [Value.str "abc"] ∧
    (recRun id (fun _ => 0) (alwaysError "403 forbidden") 10 (Value.str "abc")).2.sleeps = [] :=
  C2_terminal_fail_fast id (fun _ => 0) (alwaysError "403 forbidden") (Value.str "abc") 10
    none "403 forbidden" (by decide) rfl (by decide) (by decide)

/-- C3, witness: identifier 42, "410 gone" on every attempt, deadline after the fourth. -/
theorem C3_deadline_expiry_witness :
    (recRun id (fun _ => 0) (alwaysError "410 gone") 4 (Value.int 42)).2.fetches =
      List.replicate 4 (Value.int 42) ∧
    (recRun id (fun _ => 0) (alwaysError "410 gone") 4 (Value.int 42)).2.fetches.length = 4 ∧
    ∃ res e, alwaysError "410 gone" 4 (Value.int 42) = (res, some e) ∧
      (recRun id (fun _ => 0) (alwaysError "410 gone") 4 (Value.int 42)).1 =
        (none, [{ Severity := Severity.Error,
                  Summary := "error waiting for resource with ID \x27" ++
                    (Value.int 42).fmtV ++ "\x27 to become available: " ++ e,
                  Detail := "" }]) :=
  C3_deadline_expiry id (fun _ => 0) (alwaysError "410 gone") (Value.int 42) 4 (by decide)
    (fun _ _ _ => ⟨none, "410 gone", rfl, by decide⟩)

/-! ## Engage settings -/

namespace engage_settings

theorem read_id {A S Resp W : Type} (env : Env A S Resp W)
    (hU : ∀ d r, (env.updateState d r).2.id = d.id) (d : ResourceData A) (w : W) :
    (read env d w).2.1.id = "jamfpro_engage_settings_singleton" := by
  simp [read, hU, ResourceData.SetId]

end engage_settings

/-- C10 (engage-settings resource ID).  Assuming `updateState` leaves the ID alone: `read`
always leaves the ID "jamfpro_engage_settings_singleton"; so do `create` and `update`
whenever they reach their call of `read` (construction and the retried update call
succeeded), so that the ID "jamfpro_engage_singleton" written by `update` is not the final
one; and `delete` leaves the ID empty, returns no diagnostics and leaves the world (hence
the API) untouched. -/
theorem C10_engage_settings_id {A S Resp W : Type} (env : engage_settings.Env A S Resp W)
    (d : engage_settings.ResourceData A) (w : W)
    (hU : ∀ d r, (env.updateState d r).2.id = d.id) :
    (engage_settings.read env d w).2.1.id = "jamfpro_engage_settings_singleton" ∧
    (∀ s, env.constructEngageSettings d = .ok s →
      (retry.RetryContext env.timeoutCreate (engage_settings.updateFunc env.client s) w).1 = none →
      (engage_settings.create env d w).2.1.id = "jamfpro_engage_settings_singleton") ∧
    (∀ s, env.constructEngageSettings d = .ok s →
      (retry.RetryContext env.timeoutUpdate (engage_settings.updateFunc env.client s) w).1 = none →
      (engage_settings.update env d w).2.1.id = "jamfpro_engage_settings_singleton" ∧
      (engage_settings.update env d w).2.1.id ≠ "jamfpro_engage_singleton") ∧
    engage_settings.delete d w = ([], { d with id := "" }, w) := by
  refine ⟨engage_settings.read_id env hU d w, ?_, ?_, rfl⟩
  · intro s hs hr
    rcases hrun : retry.RetryContext env.timeoutCreate
      (engage_settings.updateFunc env.client s) w with ⟨err, w1⟩
    rw [hrun] at hr
    simp only at hr
    subst hr
    simp only [engage_settings.create, hs, hrun]
    exact engage_settings.read_id env hU _ w1
  · intro s hs hr
    rcases hrun : retry.RetryContext env.timeoutUpdate
      (engage_settings.updateFunc env.client s) w with ⟨err, w1⟩
    rw [hrun] at hr
    simp only at hr
    subst hr
    have hid : (engage_settings.update env d w).2.1.id =
        "jamfpro_engage_settings_singleton" := by
      simp only [engage_settings.update, hs, hrun]
      exact engage_settings.read_id env hU _ w1
    exact ⟨hid, by rw [hid]; decide⟩

/-- C10, witness: an environment whose calls all succeed and whose `updateState` leaves
the resource data alone; `create`, `update` and `read` end with the settings singleton ID,
`delete` with the empty one. -/
theorem C10_engage_settings_id_witness :
    (engage_settings.read engage_settings.exampleEnv { id := "old", attrs := () } 0).2.1.id =
      "jamfpro_engage_settings_singleton" ∧
    (engage_settings.create engage_settings.exampleEnv { id := "old", attrs := () } 0).2.1.id =
      "jamfpro_engage_settings_singleton" ∧
    (engage_settings.update engage_settings.exampleEnv { id := "old", attrs := () } 0).2.1.id =
      "jamfpro_engage_settings_singleton" ∧
    engage_settings.delete ({ id := "old", attrs := () } : engage_settings.ResourceData Unit)
        (0 : Nat) =
      ([], { id := "", attrs := () }, 0) :=
  have h := C10_engage_settings_id engage_settings.exampleEnv { id := "old", attrs := () } 0
    (fun _ _ => rfl)
  ⟨h.1, h.2.1 () rfl rfl, (h.2.2.1 () rfl rfl).1, h.2.2.2⟩

end Jamfpro
